import Mathlib

/-!
Verification development for the tap-mailchimp repository.

The definitions below are shallow embeddings of the Python source:

* `state.py`  — the durable `TapState` store (bookmarks, ids, counts, offsets);
* `streams.py` — `TapStream.pour` / `TapItemStream` record processing and
  per-record state updates;
* `tap.py` (package `src/src`) — the `MailChimpTap.pour` orchestrator loop;
* `tap.py` (legacy package) — the `mailchimp_gen` paginator with its retry loop;
* `client.py` — `MailChimp.iter_all` / `iter_items` pagination and
  `ApiVersionTool.coerce_list_export_to_api_v3`;
* `utils.py` — `datify`, `mailchimp_email_id`, `set_deep`.

Python dicts are modelled as association lists with replace-on-update
semantics; Python heterogeneous JSON values as the inductive `JVal`;
machine-level hashing (`hashlib.md5`, an external library fixed by RFC 1321)
is implemented over `Nat` with explicit reduction modulo 2^32.
-/

/-- JSON-like value: the payloads stored in the tap's bookmark dictionaries. -/
inductive JVal : Type where
  | null : JVal
  | bool : Bool → JVal
  | num : Nat → JVal
  | str : String → JVal
  | list : List JVal → JVal
  | obj : List (String × JVal) → JVal

/-- Python `dict.get`: first binding of a key in an association list. -/
def getKey {α : Type} : List (String × α) → String → Option α
  | [], _ => none
  | (k, v) :: rest, key => if k = key then some v else getKey rest key

/-- Python `dict.__setitem__`: replace the binding if present, else append. -/
def setKey {α : Type} : List (String × α) → String → α → List (String × α)
  | [], key, v => [(key, v)]
  | (k, w) :: rest, key, v =>
      if k = key then (k, v) :: rest else (k, w) :: setKey rest key v

theorem getKey_setKey {α : Type} (m : List (String × α)) (k k' : String) (v : α) :
    getKey (setKey m k v) k' = if k = k' then some v else getKey m k' := by
  induction m with
  | nil =>
    by_cases h : k = k' <;> simp [setKey, getKey, h]
  | cons p rest ih =>
    obtain ⟨pk, pv⟩ := p
    simp only [setKey]
    by_cases h1 : pk = k
    · subst h1
      simp only [if_pos rfl, getKey]
      by_cases h2 : pk = k' <;> simp [h2]
    · simp only [if_neg h1, getKey]
      by_cases h2 : pk = k'
      · have hkk' : ¬k = k' := fun h => h1 (h2.trans h.symm)
        simp [h2, hkk']
      · simp [h2, ih]

/-- Project a `JVal` to a dict; the tap only ever applies this to dicts
(Python would raise `TypeError` otherwise). -/
def JVal.asObj : JVal → List (String × JVal)
  | .obj o => o
  | _ => []

/-- Project a `JVal` to a string list, as the stored `ids` lists only ever
hold record-id strings. -/
def JVal.asStrList : JVal → List String
  | .list l => l.filterMap (fun v => match v with | .str s => some s | _ => none)
  | _ => []

/-- Project a `JVal` to a number; `count` values are always ints in the tap. -/
def JVal.asNum : JVal → Nat
  | .num n => n
  | _ => 0

/-- Shallow embedding of `state.TapState`: run timestamps are abstracted to
`Nat` instants, `bookmarks` maps a stream id to its bookmark dict. -/
structure TapState where
  last_run : Option Nat
  current_run : Option Nat
  currently_syncing : Option String
  bookmarks : List (String × List (String × JVal))

namespace TapState

/-- `TapState.get_bookmark`: `self.bookmarks.get(stream_id, ()).get(key, default)`. -/
def get_bookmark (s : TapState) (sid key : String) (dflt : JVal) : JVal :=
  match getKey s.bookmarks sid with
  | none => dflt
  | some bm => (getKey bm key).getD dflt

/-- `TapState.write_bookmark`: `self.bookmarks.setdefault(stream_id, ())[key] = val`. -/
def write_bookmark (s : TapState) (sid key : String) (v : JVal) : TapState :=
  let bm := (getKey s.bookmarks sid).getD []
  { s with bookmarks := setKey s.bookmarks sid (setKey bm key v) }

/-- `TapState.get_offset`. -/
def get_offset (s : TapState) (sid : String) (dflt : JVal) : JVal :=
  s.get_bookmark sid "offset" dflt

/-- `TapState.set_offset`: fetch the offset dict (default empty), set one key,
write it back. -/
def set_offset (s : TapState) (sid k : String) (v : JVal) : TapState :=
  let o := (s.get_offset sid (.obj [])).asObj
  s.write_bookmark sid "offset" (.obj (setKey o k v))

/-- `TapState.clear_offset`. -/
def clear_offset (s : TapState) (sid : String) : TapState :=
  s.write_bookmark sid "offset" (.obj [])

/-- `TapState.get_ids`: `set(self.get_bookmark(stream_id, Keys.ids, []))`.
The Python `set` is modelled as a first-occurrence deduplicated list; only
membership and cardinality of the result are ever used. -/
def get_ids (s : TapState) (sid : String) : List String :=
  ((s.get_bookmark sid "ids" (.list [])).asStrList).dedup

/-- `TapState.add_id`: insert into the id set and store it back as a list. -/
def add_id (s : TapState) (sid id_ : String) : TapState :=
  let ids := s.get_ids sid
  let ids' := if id_ ∈ ids then ids else id_ :: ids
  s.write_bookmark sid "ids" (.list (ids'.map .str))

/-- `TapState.get_id_offset`; `TypeError`/`KeyError` both fall back to the default. -/
def get_id_offset (s : TapState) (sid id_ : String) (dflt : JVal) : JVal :=
  match s.get_offset sid .null with
  | .obj o => (getKey o id_).getD dflt
  | _ => dflt

/-- `TapState.set_id_offset`. -/
def set_id_offset (s : TapState) (sid id_ k : String) (v : JVal) : TapState :=
  let o := (s.get_id_offset sid id_ (.obj [])).asObj
  s.set_offset sid id_ (.obj (setKey o k v))

/-- `TapState.get_done`. -/
def get_done (s : TapState) (sid : String) : JVal :=
  s.get_bookmark sid "done" (.bool false)

/-- `TapState.set_done`: record the flag and, when marking done, clear the
offset state. -/
def set_done (s : TapState) (sid : String) (done : Bool) : TapState :=
  let s1 := s.write_bookmark sid "done" (.bool done)
  if done then s1.clear_offset sid else s1

/-- `TapState.get_id_done`. -/
def get_id_done (s : TapState) (sid id_ : String) : JVal :=
  (getKey (s.get_id_offset sid id_ (.obj [])).asObj "done").getD (.bool false)

/-- `TapState.set_id_done`: marking an item done replaces its whole per-item
offset dict with just the done flag. -/
def set_id_done (s : TapState) (sid id_ : String) (done : Bool) : TapState :=
  if done then s.set_offset sid id_ (.obj [("done", .bool done)])
  else s.set_id_offset sid id_ "done" (.bool done)

/-- `TapState.get_count`: reads `offset.count` of the stream's bookmark. -/
def get_count (s : TapState) (sid : String) : JVal :=
  (getKey (s.get_offset sid (.obj [])).asObj "count").getD (.num 0)

/-- `TapState.set_count`: writes the bookmark key `count` — note this is a
different location from the `offset.count` read by `get_count`. -/
def set_count (s : TapState) (sid : String) (count : Nat) : TapState :=
  s.write_bookmark sid "count" (.num count)

/-- `TapState.get_id_count`. -/
def get_id_count (s : TapState) (sid id_ : String) : JVal :=
  (getKey (s.get_id_offset sid id_ (.obj [])).asObj "count").getD (.num 0)

/-- `TapState.set_id_count`. -/
def set_id_count (s : TapState) (sid id_ : String) (count : Nat) : TapState :=
  s.set_id_offset sid id_ "count" (.num count)

/-- `TapState.finalize_run`: promote `current_run` to `last_run` and reset. -/
def finalize_run (s : TapState) : TapState :=
  { s with last_run := s.current_run, current_run := none,
           currently_syncing := none, bookmarks := [] }

end TapState

/-- An empty initial tap state, as constructed from no prior snapshot. -/
def initState (now : Option Nat) : TapState :=
  { last_run := none, current_run := now, currently_syncing := none, bookmarks := [] }

theorem get_bookmark_write_bookmark (s : TapState) (sid' k' : String) (v : JVal)
    (sid k : String) (dflt : JVal) :
    (s.write_bookmark sid' k' v).get_bookmark sid k dflt =
      if sid' = sid ∧ k' = k then v else s.get_bookmark sid k dflt := by
  unfold TapState.write_bookmark TapState.get_bookmark
  simp only [getKey_setKey]
  by_cases hs : sid' = sid
  · subst hs
    simp only [if_pos rfl, true_and]
    cases hbm : getKey s.bookmarks sid' <;>
      simp only [getKey_setKey, if_pos rfl, hbm, Option.getD_none, Option.getD_some] <;>
      by_cases hk : k' = k <;> simp [hk, getKey, getKey_setKey]
  · simp [hs]

/-- Truthiness of a `JVal`, as Python evaluates values in boolean context. -/
def JVal.truthy : JVal → Bool
  | .null => false
  | .bool b => b
  | .num n => n ≠ 0
  | .str s => s ≠ ""
  | .list l => !l.isEmpty
  | .obj o => !o.isEmpty

/-- A raw record; the tap only inspects its `id` field (`record['id']`). -/
structure MCRecord where
  id : String
  deriving Repr, DecidableEq

/-- One event sent to the singer output sink: `write_schema` or `write_record`. -/
inductive Emission where
  | schema (sid : String)
  | record (sid : String) (r : MCRecord)
  deriving Repr, DecidableEq

/-- Stream kind: a root stream (`TapStream`) or an item-scoped stream
(`TapItemStream` with its parent `item_id`). -/
inductive StreamKind where
  | root
  | item (item_id : String)
  deriving Repr, DecidableEq

/-- One stream to pour: its id, kind, the record sequence its
`_iter_records` generator yields, and an error the generator raises after
those records (`none` when the sequence ends cleanly). -/
structure StreamSpec where
  sid : String
  kind : StreamKind
  records : List MCRecord
  failure : Option String
  deriving Repr, DecidableEq

/-- `TapStream.is_done` / `TapItemStream.is_done`. -/
def isDoneS (st : TapState) (s : StreamSpec) : Bool :=
  match s.kind with
  | .root => (st.get_done s.sid).truthy
  | .item iid => (st.get_id_done s.sid iid).truthy

/-- `TapStream._update_state` (root: accumulate the id set, then store the
set's size as the count) and `TapItemStream._update_state` (item: increment
the per-item count). -/
def updateStateS (st : TapState) (s : StreamSpec) (r : MCRecord) : TapState :=
  match s.kind with
  | .root =>
      let st1 := st.add_id s.sid r.id
      st1.set_count s.sid (st1.get_ids s.sid).length
  | .item iid =>
      st.set_id_count s.sid iid (1 + (st.get_id_count s.sid iid).asNum)

/-- `TapStream._set_done` / `TapItemStream._set_done`. -/
def setDoneS (st : TapState) (s : StreamSpec) : TapState :=
  match s.kind with
  | .root => st.set_done s.sid true
  | .item iid => st.set_id_done s.sid iid true

/-- The record loop of `TapStream.pour`: write each record to the sink, then
update durable state (`state.sync` is I/O and not modelled). -/
def pourRecords (s : StreamSpec) : TapState → List MCRecord → TapState × List Emission
  | st, [] => (st, [])
  | st, r :: rs =>
      let st1 := updateStateS st s r
      let (st2, ems) := pourRecords s st1 rs
      (st2, .record s.sid r :: ems)

/-- `TapStream.pour`: `pre_pour` (set `currently_syncing`), emit the schema,
drain `_iter_records`, then either propagate the generator's error (leaving
`post_pour` unexecuted) or run `post_pour` (mark done, clear
`currently_syncing`). -/
def streamPour (st : TapState) (s : StreamSpec) : TapState × List Emission × Option String :=
  let st0 := { st with currently_syncing := some s.sid }
  let (st1, ems) := pourRecords s st0 s.records
  match s.failure with
  | some e => (st1, .schema s.sid :: ems, some e)
  | none =>
      let st2 := setDoneS st1 s
      ({ st2 with currently_syncing := none }, .schema s.sid :: ems, none)

/-- The orchestrator configuration: `config.max_run_time` in minutes
(`None` or `0` disables the budget, being falsy in Python). -/
structure TapCfgM where
  max_run_time : Option Nat

/-- `MailChimpTap._check_stop`: `max_run_time < session_time() / 60`, checked
only when `max_run_time` is truthy; elapsed time is in seconds. -/
def checkStop (cfg : TapCfgM) (elapsedSec : Nat) : Bool :=
  match cfg.max_run_time with
  | none => false
  | some m => if m = 0 then false else decide (60 * m < elapsedSec)

/-- Result of the orchestrator loop: final state, sink emissions, the
`is_error` flag, whether the loop returned early on the time budget, and the
streams actually poured (those neither skipped as done nor cut off). -/
structure PourResult where
  state : TapState
  emissions : List Emission
  is_error : Bool
  stopped : Bool
  attempted : List StreamSpec

/-- The stream loop of `MailChimpTap.pour`: before each stream check the time
budget (returning early without error), skip streams already done, and catch
any exception from a stream's pour, recording `is_error` and continuing.
`time i` abstracts the wall-clock `state.session_time()` observed before the
`i`-th stream. -/
def pourLoop (cfg : TapCfgM) (time : Nat → Nat) :
    Nat → TapState → List StreamSpec → PourResult
  | _, st, [] => ⟨st, [], false, false, []⟩
  | i, st, s :: rest =>
      if checkStop cfg (time i) then ⟨st, [], false, true, []⟩
      else if isDoneS st s then pourLoop cfg time (i + 1) st rest
      else
        let (st1, ems1, err1) := streamPour st s
        let r := pourLoop cfg time (i + 1) st1 rest
        ⟨r.state, ems1 ++ r.emissions, err1.isSome || r.is_error, r.stopped,
          s :: r.attempted⟩

/-- `MailChimpTap.pour`: run the stream loop; an early time-budget return
skips finalization, otherwise `finalize_run` exactly when no stream raised. -/
def tapPour (cfg : TapCfgM) (time : Nat → Nat) (st : TapState)
    (streams : List StreamSpec) : PourResult :=
  let r := pourLoop cfg time 0 st streams
  if r.stopped then r
  else if r.is_error then r else { r with state := r.state.finalize_run }

/-- One paginated response: the page's item list (`response[coll_key]`); the
remote also reports `total_items`, abstracted separately where needed. -/
structure PageResponse (α : Type) where
  items : List α
  total_items : Nat

/-- The loop of `MailChimp.iter_all` (with `get_all=False`): fetch a page at
the current offset, advance the offset by the number of items actually
returned, yield the page, and stop only when a page comes back empty.
`pages o` is the remote's item list for offset `o`; `fuel` bounds the
unbounded `while True`. -/
def iterAllLoop {α : Type} (pages : Nat → List α) : Nat → Nat → List (List α) × Nat
  | _, 0 => ([], 0)
  | offset, fuel + 1 =>
      let items := pages offset
      if items.length = 0 then ([items], 1)
      else
        let r := iterAllLoop pages (offset + items.length) fuel
        (items :: r.1, r.2 + 1)

/-- `MailChimp.iter_items`: concatenate the item lists of the pages produced
by `iter_all` (the separate `total_items` request only feeds the progress
counter). -/
def iterItems {α : Type} (pages : Nat → List α) (offset fuel : Nat) : List α × Nat :=
  let r := iterAllLoop pages offset fuel
  (r.1.flatten, r.2)

/-- The page loop of the legacy `mailchimp_gen` after the first fetch fixed
`total_items`: keep fetching while the running offset is below that total,
advancing by the number of items returned. There is no guard against an
empty page, hence the fuel. -/
def genLoop {α : Type} (pages : Nat → List α) (total : Nat) : Nat → Nat → List α × Nat
  | _, 0 => ([], 0)
  | pc, fuel + 1 =>
      if pc < total then
        let items := pages pc
        let r := genLoop pages total (pc + items.length) fuel
        (items ++ r.1, r.2 + 1)
      else ([], 0)

/-- `mailchimp_gen` (legacy `tap.py`): the first iteration always fetches
(`total_items` still unset) and records the reported total; afterwards pages
are fetched while the running offset stays below that total. Returns the
yielded items and the number of page fetches. -/
def mailchimpGen {α : Type} (api : Nat → PageResponse α) (offset fuel : Nat) :
    List α × Nat :=
  let first := api offset
  let r := genLoop (fun o => (api o).items) first.total_items
    (offset + first.items.length) fuel
  (first.items ++ r.1, r.2 + 1)

/-- A remote holding the item list `l` and reporting consistent totals: a
request at offset `o` with page size `p` returns the next `min p (|l| - o)`
items and total `|l|`. -/
def consistentApi {α : Type} (l : List α) (p : Nat) (o : Nat) : PageResponse α :=
  { items := (l.drop o).take p, total_items := l.length }

/-- Ceiling division, as the spec's `ceil(T/P)` page-count formula. -/
def ceilDiv (a b : Nat) : Nat := (a + b - 1) / b

/-- The retry loop wrapped around each page fetch in the legacy
`mailchimp_gen`: up to `maxRetries = 5` attempts; a failed attempt `n < 5`
sleeps `2 ^ n` seconds and retries, the fifth failure re-raises. `fetch n`
is the outcome of attempt `n` (1-based); the returned list records the sleep
durations. `none` is the impossible fall-through of the `while` loop (it
always exits by `break` or `raise` when `fuel = maxRetries - retryCount`). -/
def retryLoop {E α : Type} (fetch : Nat → Except E α) (maxRetries : Nat) :
    Nat → Nat → List Nat → Option (Except E α × List Nat)
  | 0, _, _ => none
  | fuel + 1, retryCount, sleeps =>
      if retryCount < maxRetries then
        match fetch (retryCount + 1) with
        | .ok a => some (.ok a, sleeps)
        | .error e =>
            if retryCount + 1 = maxRetries then some (.error e, sleeps)
            else retryLoop fetch maxRetries fuel (retryCount + 1)
              (sleeps ++ [2 ^ (retryCount + 1)])
      else none

/-- One `mailchimp_gen` page fetch with its retry policy (`MAX_RETRIES = 5`). -/
def fetchWithRetry {E α : Type} (fetch : Nat → Except E α) :
    Option (Except E α × List Nat) :=
  retryLoop fetch 5 5 0 []

/-- `MailChimp.iter_all` over a fallible remote: `call` is the outcome of the
`n`-th API call of the run (so transient failures are per call). The loop
body has no try/except, so the first raised error propagates; the second
component counts the API calls made. -/
def iterAllE {E α : Type} (call : Nat → Except E (List α)) :
    Nat → Nat → Nat → Except E (List (List α)) × Nat
  | _, _, 0 => (.ok [], 0)
  | callIdx, offset, fuel + 1 =>
      match call callIdx with
      | .error e => (.error e, 1)
      | .ok items =>
          if items.length = 0 then (.ok [items], 1)
          else
            let r := iterAllE call (callIdx + 1) (offset + items.length) fuel
            (r.1.map (items :: ·), r.2 + 1)

theorem ceilDivZeroEq (b : Nat) (hb : 0 < b) : ceilDiv 0 b = 0 := by
  unfold ceilDiv
  exact Nat.div_eq_of_lt (by omega)

theorem ceilDivPosOf (a b : Nat) (hb : 0 < b) (ha : 0 < a) : 0 < ceilDiv a b := by
  unfold ceilDiv
  exact Nat.div_pos (by omega) hb

theorem ceilDivStep (a b : Nat) (hb : 0 < b) (ha : 0 < a) :
    ceilDiv a b = ceilDiv (a - min b a) b + 1 := by
  unfold ceilDiv
  rcases Nat.le_total a b with h | h
  · have hmin : min b a = a := by omega
    rw [hmin]
    simp only [Nat.sub_self]
    have h1 : a + b - 1 = (a - 1) + b := by omega
    rw [h1, Nat.add_div_right _ hb]
    have : (a - 1) / b = 0 := Nat.div_eq_of_lt (by omega)
    have h0 : (0 + b - 1) / b = 0 := Nat.div_eq_of_lt (by omega)
    omega
  · have hmin : min b a = b := by omega
    rw [hmin]
    have h1 : a + b - 1 = (a - b + b - 1) + b := by omega
    rw [h1, Nat.add_div_right _ hb]

theorem iterAllLoop_consistent {α : Type} (l : List α) (p : Nat) (hp : 0 < p) :
    ∀ fuel offset, offset ≤ l.length → l.length - offset < fuel →
      (iterAllLoop (fun o => (l.drop o).take p) offset fuel).1.flatten = l.drop offset
      ∧ (iterAllLoop (fun o => (l.drop o).take p) offset fuel).2 =
          ceilDiv (l.length - offset) p + 1 := by
  intro fuel
  induction fuel with
  | zero => intro offset h1 h2; omega
  | succ fuel ih =>
    intro offset h1 h2
    have hlen : ((l.drop offset).take p).length = min p (l.length - offset) := by
      simp [List.length_take, List.length_drop]
    by_cases hR : l.length - offset = 0
    · have hoff : offset = l.length := by omega
      have hnil : (l.drop offset).take p = [] := by
        subst hoff
        simp
      simp [iterAllLoop, hnil, hoff, ceilDivZeroEq p hp]
    · have hn : 0 < min p (l.length - offset) := by omega
      have hne : ¬((l.drop offset).take p).length = 0 := by omega
      have hrec := ih (offset + ((l.drop offset).take p).length)
        (by omega) (by omega)
      simp only [iterAllLoop, hne, if_false, List.flatten_cons]
      constructor
      · rw [hrec.1, hlen]
        rcases Nat.le_total p (l.length - offset) with h | h
        · have hmin : min p (l.length - offset) = p := by omega
          rw [hmin]
          have : l.drop (offset + p) = (l.drop offset).drop p := by
            rw [List.drop_drop, Nat.add_comm]
          rw [this, List.take_append_drop]
        · have hmin : min p (l.length - offset) = l.length - offset := by omega
          rw [hmin]
          have hdone : l.drop (offset + (l.length - offset)) = [] := by
            apply List.drop_eq_nil_of_le
            omega
          have htake : (l.drop offset).take p = l.drop offset := by
            apply List.take_of_length_le
            simp [List.length_drop]
            omega
          rw [hdone, htake, List.append_nil]
      · rw [hrec.2, hlen]
        have := ceilDivStep (l.length - offset) p hp (by omega)
        have harith : l.length - (offset + min p (l.length - offset)) =
            (l.length - offset) - min p (l.length - offset) := by omega
        rw [harith]
        omega

theorem genLoop_consistent {α : Type} (l : List α) (p : Nat) (hp : 0 < p) :
    ∀ fuel pc, pc ≤ l.length → l.length - pc ≤ fuel →
      (genLoop (fun o => (l.drop o).take p) l.length pc fuel).1 = l.drop pc
      ∧ (genLoop (fun o => (l.drop o).take p) l.length pc fuel).2 =
          ceilDiv (l.length - pc) p := by
  intro fuel
  induction fuel with
  | zero =>
    intro pc h1 h2
    have hpc : pc = l.length := by omega
    subst hpc
    simp [genLoop, ceilDivZeroEq p hp]
  | succ fuel ih =>
    intro pc h1 h2
    by_cases hlt : pc < l.length
    · have hlen : ((l.drop pc).take p).length = min p (l.length - pc) := by
        simp [List.length_take, List.length_drop]
      have hn : 0 < min p (l.length - pc) := by omega
      have hrec := ih (pc + ((l.drop pc).take p).length) (by omega) (by omega)
      simp only [genLoop, hlt, if_pos]
      constructor
      · rw [hrec.1, hlen]
        rcases Nat.le_total p (l.length - pc) with h | h
        · have hmin : min p (l.length - pc) = p := by omega
          rw [hmin]
          have : l.drop (pc + p) = (l.drop pc).drop p := by
            rw [List.drop_drop, Nat.add_comm]
          rw [this, List.take_append_drop]
        · have hmin : min p (l.length - pc) = l.length - pc := by omega
          rw [hmin]
          have hdone : l.drop (pc + (l.length - pc)) = [] := by
            apply List.drop_eq_nil_of_le
            omega
          have htake : (l.drop pc).take p = l.drop pc := by
            apply List.take_of_length_le
            simp [List.length_drop]
            omega
          rw [hdone, htake, List.append_nil]
      · rw [hrec.2, hlen]
        have := ceilDivStep (l.length - pc) p hp (by omega)
        have harith : l.length - (pc + min p (l.length - pc)) =
            (l.length - pc) - min p (l.length - pc) := by omega
        rw [harith]
        omega
    · have hpc : pc = l.length := by omega
      subst hpc
      simp [genLoop, ceilDivZeroEq p hp]

/-- C1 (amended): with a remote reporting consistent totals for an item list
of length `T` and page size `P ≥ 1`, both paginators yield exactly the `T`
items in order and terminate, but their fetch counts differ from the claim:
`iter_items`/`iter_all` stops only when a page returns zero items and so
performs `ceil(T/P) + 1` page fetches (one extra empty-page call), while the
legacy `mailchimp_gen` stops when its running offset reaches the total
reported by the first page, performing `max(1, ceil(T/P))` fetches (one
fetch even when `T = 0`, since the first fetch is what reports the total). -/
theorem paginators_consistent_totals {α : Type} (l : List α) (p fuel : Nat)
    (hp : 0 < p) (hfuel : l.length < fuel) :
    (iterItems (fun o => (l.drop o).take p) 0 fuel).1 = l
    ∧ (iterItems (fun o => (l.drop o).take p) 0 fuel).2 = ceilDiv l.length p + 1
    ∧ (mailchimpGen (consistentApi l p) 0 fuel).1 = l
    ∧ (mailchimpGen (consistentApi l p) 0 fuel).2 = max 1 (ceilDiv l.length p) := by
  have hiter := iterAllLoop_consistent l p hp fuel 0 (by omega) (by omega)
  refine ⟨?_, ?_, ?_, ?_⟩
  · simpa [iterItems] using hiter.1
  · simpa [iterItems] using hiter.2
  · have hfirst : (consistentApi l p 0).items = l.take p := by
      simp [consistentApi]
    have hlen : (l.take p).length = min p l.length := by simp
    have hgen := genLoop_consistent l p hp fuel (0 + (l.take p).length)
      (by omega) (by omega)
    have hpages : (fun o => ((consistentApi l p o).items)) =
        (fun o => (l.drop o).take p) := by
      funext o
      simp [consistentApi]
    simp only [mailchimpGen, hfirst, consistentApi, hpages, List.drop_zero]
    rw [hgen.1]
    rcases Nat.le_total p l.length with h | h
    · have hlp : 0 + (l.take p).length = p := by omega
      rw [hlp]
      exact List.take_append_drop p l
    · have htake : l.take p = l := List.take_of_length_le h
      have hnil : l.drop (0 + (l.take p).length) = [] := by
        apply List.drop_eq_nil_of_le
        simp only [Nat.zero_add, List.length_take]
        omega
      rw [hnil, htake, List.append_nil]
  · have hfirst : (consistentApi l p 0).items = l.take p := by
      simp [consistentApi]
    have hlen : (l.take p).length = min p l.length := by simp
    have hgen := genLoop_consistent l p hp fuel (0 + (l.take p).length)
      (by omega) (by omega)
    have hpages : (fun o => ((consistentApi l p o).items)) =
        (fun o => (l.drop o).take p) := by
      funext o
      simp [consistentApi]
    simp only [mailchimpGen, hfirst, consistentApi, hpages, List.drop_zero]
    rw [hgen.2]
    by_cases hT : l.length = 0
    · simp [hT, hlen, ceilDivZeroEq p hp]
    · have hstep := ceilDivStep l.length p hp (by omega)
      have h2 : l.length - min p l.length = l.length - (0 + (l.take p).length) := by
        omega
      rw [h2] at hstep
      have hge : 1 ≤ ceilDiv l.length p := ceilDivPosOf l.length p hp (by omega)
      omega

/-- C1 (counterexample): for total `T = 1` and page size `P = 1`, the
`iter_all`/`iter_items` paginator performs 2 page fetches, not the
`ceil(T/P) = 1` the claim asserts — the second, empty page is the only thing
that terminates its loop. -/
theorem paginators_fetch_count_counterexample :
    (iterItems (fun o => (([5] : List Nat).drop o).take 1) 0 3).2 = 2
    ∧ ceilDiv 1 1 = 1 ∧ (2 : Nat) ≠ 1 := by
  refine ⟨rfl, rfl, by omega⟩

/-- Witness instantiating `paginators_consistent_totals` at `T = 2`, `P = 1`. -/
theorem paginators_consistent_totals_witness :
    (iterItems (fun o => (([5, 6] : List Nat).drop o).take 1) 0 4).1 = [5, 6]
    ∧ (iterItems (fun o => (([5, 6] : List Nat).drop o).take 1) 0 4).2 = 3
    ∧ (mailchimpGen (consistentApi ([5, 6] : List Nat) 1) 0 4).1 = [5, 6]
    ∧ (mailchimpGen (consistentApi ([5, 6] : List Nat) 1) 0 4).2 = 2 := by
  have h := paginators_consistent_totals ([5, 6] : List Nat) 1 4
    (by decide) (by decide)
  refine ⟨h.1, ?_, h.2.2.1, ?_⟩
  · rw [h.2.1]
    rfl
  · rw [h.2.2.2]
    rfl

theorem retryLoop_ok {E α : Type} (fetch : Nat → Except E α) (fuel rc : Nat)
    (sleeps : List Nat) (a : α) (hrc : rc < 5) (hok : fetch (rc + 1) = .ok a) :
    retryLoop fetch 5 (fuel + 1) rc sleeps = some (.ok a, sleeps) := by
  simp [retryLoop, hrc, hok]

theorem retryLoop_err_step {E α : Type} (fetch : Nat → Except E α) (fuel rc : Nat)
    (sleeps : List Nat) (e : E) (hrc : rc + 1 < 5) (herr : fetch (rc + 1) = .error e) :
    retryLoop fetch 5 (fuel + 1) rc sleeps =
      retryLoop fetch 5 fuel (rc + 1) (sleeps ++ [2 ^ (rc + 1)]) := by
  have h1 : rc < 5 := by omega
  have h2 : ¬(rc + 1 = 5) := by omega
  simp [retryLoop, h1, h2, herr]

theorem retryLoop_err_last {E α : Type} (fetch : Nat → Except E α) (fuel : Nat)
    (sleeps : List Nat) (e : E) (herr : fetch 5 = .error e) :
    retryLoop fetch 5 (fuel + 1) 4 sleeps = some (.error e, sleeps) := by
  simp [retryLoop, herr]

theorem retryLoop_after_failures {E α : Type} (fetch : Nat → Except E α) (k : Nat) :
    ∀ rc fuel sleeps, rc + k < 5 →
      (∀ i, i < k → ∃ e, fetch (rc + i + 1) = .error e) →
      retryLoop fetch 5 (fuel + k) rc sleeps =
        retryLoop fetch 5 fuel (rc + k)
          (sleeps ++ (List.range k).map (fun i => 2 ^ (rc + i + 1))) := by
  induction k with
  | zero => intro rc fuel sleeps _ _; simp
  | succ k ih =>
    intro rc fuel sleeps hlt hfail
    obtain ⟨e, he⟩ := hfail 0 (by omega)
    have hstep : retryLoop fetch 5 (fuel + k + 1) rc sleeps =
        retryLoop fetch 5 (fuel + k) (rc + 1) (sleeps ++ [2 ^ (rc + 1)]) :=
      retryLoop_err_step fetch (fuel + k) rc sleeps e (by omega) (by simpa using he)
    have hrec := ih (rc + 1) fuel (sleeps ++ [2 ^ (rc + 1)]) (by omega)
      (fun i hi => by
        obtain ⟨e', he'⟩ := hfail (i + 1) (by omega)
        exact ⟨e', by rw [show rc + 1 + i + 1 = rc + (i + 1) + 1 by omega]; exact he'⟩)
    have harr : fuel + (k + 1) = fuel + k + 1 := by omega
    rw [harr, hstep, hrec]
    have hidx : rc + 1 + k = rc + (k + 1) := by omega
    rw [hidx]
    have hlist : sleeps ++ [2 ^ (rc + 1)]
        ++ (List.range k).map (fun i => 2 ^ (rc + 1 + i + 1)) =
        sleeps ++ (List.range (k + 1)).map (fun i => 2 ^ (rc + i + 1)) := by
      rw [List.append_assoc]
      congr 1
      rw [List.range_succ_eq_map, List.map_cons, List.map_map, List.singleton_append]
      congr 1
      exact List.map_congr_left fun i _ => by
        simp only [Function.comp_apply]
        congr 1
        omega
    rw [hlist]

/-- C4 (amended): the retry-with-backoff policy lives in the legacy
`mailchimp_gen` paginator only. There, a page fetch failing on attempts
`1..k` and succeeding on attempt `k+1 ≤ 5` yields its page normally after
sleeping `2^1, ..., 2^k` seconds, and a fetch failing on all 5 attempts
re-raises the fifth error after sleeping `2, 4, 8, 16` seconds. The newer
client's `iter_all` performs no retry at all: a single failed call
propagates immediately after exactly one API call. -/
theorem retry_backoff_policy {E α : Type} (fetch : Nat → Except E α)
    (call : Nat → Except E (List α)) :
    (∀ k a, k < 5 → (∀ i, i < k → ∃ e, fetch (i + 1) = .error e) →
      fetch (k + 1) = .ok a →
      fetchWithRetry fetch = some (.ok a, (List.range k).map (fun i => 2 ^ (i + 1))))
    ∧ (∀ es : Nat → E, (∀ i, i < 5 → fetch (i + 1) = .error (es i)) →
      fetchWithRetry fetch = some (.error (es 4), [2, 4, 8, 16]))
    ∧ (∀ i off fuel e, call i = .error e →
      iterAllE call i off (fuel + 1) = (.error e, 1)) := by
  refine ⟨?_, ?_, ?_⟩
  · intro k a hk hfail hok
    unfold fetchWithRetry
    have h5 : (5 - k) + k = 5 := by omega
    nth_rewrite 2 [← h5]
    rw [retryLoop_after_failures fetch k 0 (5 - k) [] (by omega)
      (fun i hi => by simpa using hfail i hi)]
    have hf : 5 - k = (5 - k - 1) + 1 := by omega
    rw [hf]
    have hok2 := retryLoop_ok fetch (5 - k - 1) (0 + k)
      ([] ++ (List.range k).map (fun i => 2 ^ (0 + i + 1))) a (by omega)
      (by simpa using hok)
    rw [hok2]
    simp
  · intro es hfail
    unfold fetchWithRetry
    have h5 : (1 : Nat) + 4 = 5 := by omega
    nth_rewrite 2 [← h5]
    rw [retryLoop_after_failures fetch 4 0 1 [] (by omega)
      (fun i hi => ⟨es i, by simpa using hfail i (by omega)⟩)]
    have hlast := retryLoop_err_last fetch 0
      ([] ++ (List.range 4).map (fun i => 2 ^ (0 + i + 1))) (es 4)
      (by simpa using hfail 4 (by omega))
    simp only [Nat.zero_add, List.nil_append] at hlast ⊢
    rw [hlast]
    rfl
  · intro i off fuel e herr
    simp [iterAllE, herr]

/-- The remote behavior refuting C4 for `iter_all`: the first API call fails
transiently, every later call returns a page. -/
def c4Call : Nat → Except String (List Nat) :=
  fun c => if c = 0 then .error "transient" else .ok [7]

/-- C4 (counterexample): a page fetch through `MailChimp.iter_all` that
raises a transient error is not retried — the error propagates to the
caller after a single API call, even though the very next attempt would
have returned a page. -/
theorem iter_all_no_retry_counterexample :
    (iterAllE c4Call 0 0 10).1 = .error "transient"
    ∧ (iterAllE c4Call 0 0 10).2 = 1
    ∧ c4Call 1 = .ok [7] := by
  exact ⟨rfl, rfl, rfl⟩

/-- A fetch failing on the first two attempts and succeeding on the third. -/
def c4aFetch : Nat → Except String Nat :=
  fun n => if n < 3 then .error "transient" else .ok 30

/-- A fetch failing on every attempt. -/
def c4bFetch : Nat → Except String Nat :=
  fun _ => .error "boom"

/-- Witness instantiating `retry_backoff_policy`: two failures then success
sleeps `[2, 4]`; five failures re-raise after sleeping `[2, 4, 8, 16]`. -/
theorem retry_backoff_policy_witness :
    fetchWithRetry c4aFetch = some (.ok 30, [2, 4])
    ∧ fetchWithRetry c4bFetch = some (.error "boom", [2, 4, 8, 16]) := by
  constructor
  · have h := (retry_backoff_policy c4aFetch c4Call).1 2 30 (by omega)
      (fun i hi => ⟨"transient", by interval_cases i <;> rfl⟩) (by rfl)
    simpa using h
  · have h := (retry_backoff_policy c4bFetch c4Call).2.1 (fun _ => "boom")
      (fun i _ => rfl)
    simpa using h

theorem get_offset_set_offset (st : TapState) (sid k : String) (v : JVal) (dflt : JVal) :
    (st.set_offset sid k v).get_offset sid dflt =
      .obj (setKey (st.get_offset sid (.obj [])).asObj k v) := by
  unfold TapState.set_offset TapState.get_offset
  rw [get_bookmark_write_bookmark]
  simp

theorem get_offset_set_offset_other (st : TapState) (sid' sid k : String) (v : JVal)
    (dflt : JVal) (h : sid' ≠ sid) :
    (st.set_offset sid' k v).get_offset sid dflt = st.get_offset sid dflt := by
  unfold TapState.set_offset TapState.get_offset
  rw [get_bookmark_write_bookmark]
  simp [h]

theorem get_id_offset_set_offset (st : TapState) (sid k B : String) (v : JVal)
    (dflt : JVal) :
    (st.set_offset sid k v).get_id_offset sid B dflt =
      if k = B then v else st.get_id_offset sid B dflt := by
  unfold TapState.get_id_offset
  rw [get_offset_set_offset]
  simp only [getKey_setKey]
  by_cases hk : k = B
  · simp [hk]
  · simp only [hk, if_false]
    unfold TapState.get_offset TapState.get_bookmark JVal.asObj
    cases hbm : getKey st.bookmarks sid with
    | none => simp [getKey]
    | some bm =>
      cases ho : getKey bm "offset" with
      | none => simp [ho, getKey]
      | some ov => cases ov <;> simp [ho, getKey]

theorem get_id_offset_set_id_count (st : TapState) (sid A B : String) (c : Nat)
    (dflt : JVal) (h : A ≠ B) :
    (st.set_id_count sid A c).get_id_offset sid B dflt = st.get_id_offset sid B dflt := by
  unfold TapState.set_id_count TapState.set_id_offset
  rw [get_id_offset_set_offset]
  simp [h]

theorem get_id_offset_set_id_done (st : TapState) (sid A B : String) (d : Bool)
    (dflt : JVal) (h : A ≠ B) :
    (st.set_id_done sid A d).get_id_offset sid B dflt = st.get_id_offset sid B dflt := by
  unfold TapState.set_id_done
  by_cases hd : d <;>
    simp only [hd, if_true, if_false, Bool.false_eq_true]
  · rw [get_id_offset_set_offset]
    simp [h]
  · unfold TapState.set_id_offset
    rw [get_id_offset_set_offset]
    simp [h]

/-- C8: marking a stream done clears its offset state to the empty mapping,
and marking an item done replaces that item's per-item offset state with
just the done flag (the in-progress count is gone). -/
theorem done_clears_offset_state :
    (∀ st : TapState, ∀ sid : String,
      (st.set_done sid true).get_offset sid .null = .obj [])
    ∧ (∀ st : TapState, ∀ sid iid : String,
      (st.set_id_done sid iid true).get_id_offset sid iid .null =
        .obj [("done", .bool true)]) := by
  constructor
  · intro st sid
    unfold TapState.set_done TapState.clear_offset TapState.get_offset
    simp [get_bookmark_write_bookmark]
  · intro st sid iid
    unfold TapState.set_id_done
    simp only [if_true]
    rw [get_id_offset_set_offset]
    simp

/-- The root `lists` stream with a single record, as the concrete input for
observing one `_update_state` step. -/
def listsSpec : StreamSpec :=
  { sid := "lists", kind := .root, records := [⟨"a"⟩], failure := none }

/-- C3 (code bug): `set_count` stores the count under the bookmark key
`count`, while `get_count` — the value used as the resume offset — reads
`offset.count`, a location `set_count` never writes. In general a
`set_count` is invisible to `get_count`; concretely, after one root-stream
state update from an empty state the id set has one element and the written
bookmark is 1, yet `get_count` still reads 0. -/
theorem count_roundtrip_mismatch :
    (∀ st : TapState, ∀ sid : String, ∀ n : Nat,
      (st.set_count sid n).get_count sid = st.get_count sid)
    ∧ (updateStateS (initState none) listsSpec ⟨"a"⟩).get_count "lists" = .num 0
    ∧ ((updateStateS (initState none) listsSpec ⟨"a"⟩).get_ids "lists").length = 1
    ∧ (updateStateS (initState none) listsSpec ⟨"a"⟩).get_bookmark "lists" "count" .null
        = .num 1 := by
  refine ⟨?_, rfl, rfl, rfl⟩
  intro st sid n
  unfold TapState.set_count TapState.get_count TapState.get_offset
  rw [get_bookmark_write_bookmark]
  simp

theorem pourRecords_item_frame (sid A B : String) (hAB : A ≠ B)
    (s : StreamSpec) (hs : s.sid = sid) (hk : s.kind = .item A)
    (recs : List MCRecord) :
    ∀ st : TapState, ∀ dflt : JVal,
      ((pourRecords s st recs).1).get_id_offset sid B dflt =
        st.get_id_offset sid B dflt := by
  induction recs with
  | nil => intro st dflt; rfl
  | cons r rs ih =>
    intro st dflt
    show ((pourRecords s (updateStateS st s r) rs).1).get_id_offset sid B dflt = _
    rw [ih]
    unfold updateStateS
    rw [hk]
    simp only
    rw [hs]
    exact get_id_offset_set_id_count st sid A B _ dflt hAB

/-- C6: updating parent item A's per-item state — `set_id_count`,
`set_id_done`, or an export error that aborts A's stream pour mid-run —
leaves parent item B's per-item `done` and `count` state untouched, so B
stays eligible for processing in the same run. -/
theorem per_item_isolation (st : TapState) (sid A B : String) (hAB : A ≠ B)
    (c : Nat) (recs : List MCRecord) (err : String) :
    ((st.set_id_count sid A c).get_id_done sid B = st.get_id_done sid B)
    ∧ ((st.set_id_count sid A c).get_id_count sid B = st.get_id_count sid B)
    ∧ (∀ d : Bool,
        ((st.set_id_done sid A d).get_id_done sid B = st.get_id_done sid B)
        ∧ ((st.set_id_done sid A d).get_id_count sid B = st.get_id_count sid B))
    ∧ (((streamPour st ⟨sid, .item A, recs, some err⟩).1).get_id_done sid B
        = st.get_id_done sid B)
    ∧ (((streamPour st ⟨sid, .item A, recs, some err⟩).1).get_id_count sid B
        = st.get_id_count sid B) := by
  have hpour : ∀ dflt : JVal,
      ((streamPour st ⟨sid, .item A, recs, some err⟩).1).get_id_offset sid B dflt =
        st.get_id_offset sid B dflt := by
    intro dflt
    show ((pourRecords _ _ recs).1).get_id_offset sid B dflt = _
    rw [pourRecords_item_frame sid A B hAB _ rfl rfl recs]
    rfl
  refine ⟨?_, ?_, ?_, ?_, ?_⟩
  · unfold TapState.get_id_done
    rw [get_id_offset_set_id_count st sid A B c _ hAB]
  · unfold TapState.get_id_count
    rw [get_id_offset_set_id_count st sid A B c _ hAB]
  · intro d
    constructor
    · unfold TapState.get_id_done
      rw [get_id_offset_set_id_done st sid A B d _ hAB]
    · unfold TapState.get_id_count
      rw [get_id_offset_set_id_done st sid A B d _ hAB]
  · unfold TapState.get_id_done
    rw [hpour]
  · unfold TapState.get_id_count
    rw [hpour]

/-- Witness instantiating `per_item_isolation`: with item `b` holding count 2
and done `false`, an update to item `a` and a failed pour for `a` leave `b`'s
state at count 2, done `false`. -/
theorem per_item_isolation_witness :
    ((((initState none).set_id_count "s" "b" 2).set_id_count "s" "a" 7).get_id_count "s" "b"
      = .num 2)
    ∧ (((streamPour ((initState none).set_id_count "s" "b" 2)
        ⟨"s", .item "a", [⟨"r"⟩], some "boom"⟩).1).get_id_done "s" "b" = .bool false) := by
  have h := per_item_isolation ((initState none).set_id_count "s" "b" 2)
    "s" "a" "b" (by decide) 7 [⟨"r"⟩] "boom"
  exact ⟨h.2.1.trans rfl, h.2.2.2.1.trans rfl⟩

theorem filterMapStr (l : List String) :
    (l.map JVal.str).filterMap
      (fun v => match v with | JVal.str s => some s | _ => none) = l := by
  induction l with
  | nil => rfl
  | cons x xs ih => simp [List.filterMap_cons, ih]

theorem asStrList_map_str (l : List String) :
    (JVal.list (l.map .str)).asStrList = l := by
  simp only [JVal.asStrList]
  exact filterMapStr l

theorem get_ids_write_bookmark_other (st : TapState) (sid' k : String) (v : JVal)
    (sid : String) (h : ¬(sid' = sid ∧ k = "ids")) :
    (st.write_bookmark sid' k v).get_ids sid = st.get_ids sid := by
  unfold TapState.get_ids
  rw [get_bookmark_write_bookmark]
  simp [h]

theorem nodup_get_ids (st : TapState) (sid : String) : (st.get_ids sid).Nodup :=
  List.nodup_dedup _

theorem get_ids_write_bookmark_ids (st : TapState) (sid : String) (v : JVal) :
    (st.write_bookmark sid "ids" v).get_ids sid = v.asStrList.dedup := by
  unfold TapState.get_ids
  rw [get_bookmark_write_bookmark]
  simp

theorem get_ids_add_id (st : TapState) (sid x : String) :
    (st.add_id sid x).get_ids sid =
      if x ∈ st.get_ids sid then st.get_ids sid else x :: st.get_ids sid := by
  show (st.write_bookmark sid "ids" (.list ((if x ∈ st.get_ids sid
    then st.get_ids sid else x :: st.get_ids sid).map .str))).get_ids sid = _
  rw [get_ids_write_bookmark_ids, asStrList_map_str]
  apply List.dedup_eq_self.mpr
  by_cases hx : x ∈ st.get_ids sid
  · simp only [hx, if_true]
    exact nodup_get_ids st sid
  · simp only [hx, if_false]
    exact List.Nodup.cons hx (nodup_get_ids st sid)

theorem get_ids_set_count (st : TapState) (sid : String) (n : Nat) :
    (st.set_count sid n).get_ids sid = st.get_ids sid := by
  unfold TapState.set_count
  apply get_ids_write_bookmark_other
  simp

/-- The id set accumulated by a sequence of `add_id` operations: Python set
insertion folded over the record ids. -/
def foldIds : List String → List String → List String
  | acc, [] => acc
  | acc, x :: xs => foldIds (if x ∈ acc then acc else x :: acc) xs

theorem foldIds_cons (acc : List String) (x : String) (xs : List String) :
    foldIds acc (x :: xs) = foldIds (if x ∈ acc then acc else x :: acc) xs := rfl

theorem mem_foldIds (y : String) : ∀ xs acc, y ∈ foldIds acc xs ↔ y ∈ acc ∨ y ∈ xs := by
  intro xs
  induction xs with
  | nil => intro acc; simp [foldIds]
  | cons x xs ih =>
    intro acc
    unfold foldIds
    rw [ih]
    by_cases hx : x ∈ acc
    · simp only [hx, if_true]
      constructor
      · rintro (h | h)
        · exact Or.inl h
        · exact Or.inr (List.mem_cons_of_mem x h)
      · rintro (h | h)
        · exact Or.inl h
        · rcases List.mem_cons.mp h with h | h
          · exact Or.inl (h ▸ hx)
          · exact Or.inr h
    · simp only [hx, if_false]
      constructor
      · rintro (h | h)
        · rcases List.mem_cons.mp h with h | h
          · exact Or.inr (h ▸ List.mem_cons_self x xs)
          · exact Or.inl h
        · exact Or.inr (List.mem_cons_of_mem x h)
      · rintro (h | h)
        · exact Or.inl (List.mem_cons_of_mem x h)
        · rcases List.mem_cons.mp h with h | h
          · exact Or.inl (h ▸ List.mem_cons_self x acc)
          · exact Or.inr h

theorem nodup_foldIds : ∀ xs acc, acc.Nodup → (foldIds acc xs).Nodup := by
  intro xs
  induction xs with
  | nil => intro acc h; exact h
  | cons x xs ih =>
    intro acc h
    unfold foldIds
    by_cases hx : x ∈ acc
    · simp only [hx, if_true]
      exact ih acc h
    · simp only [hx, if_false]
      exact ih _ (List.Nodup.cons hx h)

theorem get_ids_pourRecords_root (s : StreamSpec) (hk : s.kind = .root)
    (recs : List MCRecord) :
    ∀ st : TapState,
      ((pourRecords s st recs).1).get_ids s.sid =
        foldIds (st.get_ids s.sid) (recs.map MCRecord.id) := by
  induction recs with
  | nil => intro st; rfl
  | cons r rs ih =>
    intro st
    show ((pourRecords s (updateStateS st s r) rs).1).get_ids s.sid = _
    rw [ih, List.map_cons, foldIds_cons]
    congr 1
    unfold updateStateS
    rw [hk]
    simp only
    rw [get_ids_set_count, get_ids_add_id]

theorem pourRecords_emissions (s : StreamSpec) (recs : List MCRecord) :
    ∀ st : TapState, (pourRecords s st recs).2 = recs.map (.record s.sid ·) := by
  induction recs with
  | nil => intro st; rfl
  | cons r rs ih =>
    intro st
    show (Emission.record s.sid r) :: (pourRecords s (updateStateS st s r) rs).2 = _
    rw [ih]
    rfl

theorem streamPour_emissions (st : TapState) (s : StreamSpec) :
    (streamPour st s).2.1 = .schema s.sid :: s.records.map (.record s.sid ·) := by
  unfold streamPour
  cases hf : s.failure <;> simp [hf, pourRecords_emissions]

theorem get_ids_set_done_self (st : TapState) (sid : String) :
    (st.set_done sid true).get_ids sid = st.get_ids sid := by
  unfold TapState.set_done TapState.clear_offset
  simp only [if_true]
  rw [get_ids_write_bookmark_other, get_ids_write_bookmark_other] <;> simp

theorem streamPour_root_get_ids (st : TapState) (s : StreamSpec)
    (hk : s.kind = .root) :
    ((streamPour st s).1).get_ids s.sid =
      foldIds (st.get_ids s.sid) (s.records.map MCRecord.id) := by
  have hrec := get_ids_pourRecords_root s hk s.records
    { st with currently_syncing := some s.sid }
  unfold streamPour
  cases hf : s.failure
  · simp only
    unfold setDoneS
    rw [hk]
    simp only
    show ((pourRecords s { st with currently_syncing := some s.sid }
      s.records).1.set_done s.sid true).get_ids s.sid = _
    rw [get_ids_set_done_self, hrec]
    rfl
  · simp only
    show ((pourRecords s { st with currently_syncing := some s.sid }
      s.records).1).get_ids s.sid = _
    rw [hrec]
    rfl

/-- The campaigns stream whose creation-time and send-time generators each
yield the same campaign id `c1`, chained by `_iter_records`. -/
def c2Spec : StreamSpec :=
  { sid := "campaigns", kind := .root, records := [⟨"c1"⟩] ++ [⟨"c1"⟩],
    failure := none }

/-- C2 (counterexample): a campaign id present in both the creation-time and
the send-time result sequences is written to the output sink twice — `pour`
calls `write_record` for every record the chained generators yield, with no
dedup before emission — even though the id-set state records it once. -/
theorem campaign_dup_emitted_twice_counterexample :
    ((streamPour (initState none) c2Spec).2.1.countP
      (fun e => e = Emission.record "campaigns" ⟨"c1"⟩)) = 2
    ∧ ((streamPour (initState none) c2Spec).1).get_ids "campaigns" = ["c1"] := by
  exact ⟨rfl, rfl⟩

/-- C2 (amended): when the two campaign filters are chained, a campaign id
appearing in both sequences is counted exactly once at the id-set layer —
the accumulated `ids` set holds it once, so the stored count counts it once
— but it is emitted to the output sink once per occurrence in the
concatenation, not exactly once. -/
theorem campaign_dedup_at_id_layer (st : TapState) (sid x : String)
    (a b : List MCRecord) (hxa : x ∈ a.map MCRecord.id)
    (hxb : x ∈ b.map MCRecord.id) :
    ((streamPour st ⟨sid, .root, a ++ b, none⟩).2.1 =
      .schema sid :: (a ++ b).map (.record sid ·))
    ∧ x ∈ ((streamPour st ⟨sid, .root, a ++ b, none⟩).1).get_ids sid
    ∧ (((streamPour st ⟨sid, .root, a ++ b, none⟩).1).get_ids sid).count x = 1 := by
  have hids := streamPour_root_get_ids st ⟨sid, .root, a ++ b, none⟩ rfl
  have hmem : x ∈ ((streamPour st ⟨sid, .root, a ++ b, none⟩).1).get_ids sid := by
    rw [hids]
    rw [mem_foldIds]
    right
    rw [List.map_append]
    exact List.mem_append_left _ hxa
  have hnodup : (((streamPour st ⟨sid, .root, a ++ b, none⟩).1).get_ids sid).Nodup := by
    rw [hids]
    exact nodup_foldIds _ _ (nodup_get_ids st sid)
  exact ⟨streamPour_emissions st _, hmem, List.count_eq_one_of_mem hnodup hmem⟩

/-- Witness instantiating `campaign_dedup_at_id_layer` on the duplicated
campaign id `c1`. -/
theorem campaign_dedup_at_id_layer_witness :
    (((streamPour (initState none)
      ⟨"campaigns", .root, [⟨"c1"⟩] ++ [⟨"c1"⟩], none⟩).1).get_ids "campaigns").count "c1"
      = 1 := by
  have h := campaign_dedup_at_id_layer (initState none) "campaigns" "c1"
    [⟨"c1"⟩] [⟨"c1"⟩] (by decide) (by decide)
  exact h.2.2

theorem get_done_write_bookmark (st : TapState) (sid' k : String) (v : JVal)
    (sid : String) (h : ¬(sid' = sid ∧ k = "done")) :
    (st.write_bookmark sid' k v).get_done sid = st.get_done sid := by
  unfold TapState.get_done
  rw [get_bookmark_write_bookmark]
  simp [h]

theorem get_id_offset_write_bookmark_other (st : TapState) (sid' k : String)
    (v : JVal) (sid iid : String) (dflt : JVal) (h : ¬(sid' = sid ∧ k = "offset")) :
    (st.write_bookmark sid' k v).get_id_offset sid iid dflt =
      st.get_id_offset sid iid dflt := by
  unfold TapState.get_id_offset TapState.get_offset
  rw [get_bookmark_write_bookmark]
  simp [h]

theorem timeFields_write_bookmark (st : TapState) (sid k : String) (v : JVal) :
    (st.write_bookmark sid k v).last_run = st.last_run
    ∧ (st.write_bookmark sid k v).current_run = st.current_run :=
  ⟨rfl, rfl⟩

theorem timeFields_updateState (st : TapState) (t : StreamSpec) (r : MCRecord) :
    (updateStateS st t r).last_run = st.last_run
    ∧ (updateStateS st t r).current_run = st.current_run := by
  unfold updateStateS
  cases t.kind <;> exact ⟨rfl, rfl⟩

theorem timeFields_pourRecords (t : StreamSpec) (recs : List MCRecord) :
    ∀ st : TapState, ((pourRecords t st recs).1).last_run = st.last_run
      ∧ ((pourRecords t st recs).1).current_run = st.current_run := by
  induction recs with
  | nil => intro st; exact ⟨rfl, rfl⟩
  | cons r rs ih =>
    intro st
    have h1 := ih (updateStateS st t r)
    have h2 := timeFields_updateState st t r
    exact ⟨h1.1.trans h2.1, h1.2.trans h2.2⟩

theorem timeFields_streamPour (st : TapState) (t : StreamSpec) :
    ((streamPour st t).1).last_run = st.last_run
    ∧ ((streamPour st t).1).current_run = st.current_run := by
  have hrec := timeFields_pourRecords t t.records
    { st with currently_syncing := some t.sid }
  unfold streamPour
  cases hf : t.failure
  · simp only
    unfold setDoneS
    cases t.kind
    · unfold TapState.set_done TapState.clear_offset
      simp only [if_true]
      exact ⟨hrec.1, hrec.2⟩
    · unfold TapState.set_id_done
      simp only [if_true]
      exact ⟨hrec.1, hrec.2⟩
  · simp only
    exact ⟨hrec.1, hrec.2⟩

theorem streamPour_error (st : TapState) (t : StreamSpec) :
    (streamPour st t).2.2 = t.failure := by
  unfold streamPour
  cases hf : t.failure <;> simp [hf]

theorem pourLoop_cons (cfg : TapCfgM) (time : Nat → Nat) (i : Nat)
    (st : TapState) (s : StreamSpec) (rest : List StreamSpec) :
    pourLoop cfg time i st (s :: rest) =
      if checkStop cfg (time i) then ⟨st, [], false, true, []⟩
      else if isDoneS st s then pourLoop cfg time (i + 1) st rest
      else
        ⟨(pourLoop cfg time (i + 1) (streamPour st s).1 rest).state,
          (streamPour st s).2.1 ++
            (pourLoop cfg time (i + 1) (streamPour st s).1 rest).emissions,
          ((streamPour st s).2.2).isSome ||
            (pourLoop cfg time (i + 1) (streamPour st s).1 rest).is_error,
          (pourLoop cfg time (i + 1) (streamPour st s).1 rest).stopped,
          s :: (pourLoop cfg time (i + 1) (streamPour st s).1 rest).attempted⟩ := rfl

theorem pourLoop_no_stop (cfg : TapCfgM) (time : Nat → Nat)
    (hstop : ∀ i, checkStop cfg (time i) = false) :
    ∀ streams : List StreamSpec, ∀ i : Nat, ∀ st : TapState,
      (pourLoop cfg time i st streams).stopped = false
      ∧ ((pourLoop cfg time i st streams).state).last_run = st.last_run
      ∧ ((pourLoop cfg time i st streams).state).current_run = st.current_run
      ∧ ((pourLoop cfg time i st streams).is_error = false ↔
          ∀ t ∈ (pourLoop cfg time i st streams).attempted, t.failure = none) := by
  intro streams
  induction streams with
  | nil =>
    intro i st
    refine ⟨rfl, rfl, rfl, ?_⟩
    simp [pourLoop]
  | cons s rest ih =>
    intro i st
    rw [pourLoop_cons, hstop i]
    simp only [Bool.false_eq_true, if_false]
    cases hd : isDoneS st s with
    | true =>
      simp only [if_true]
      exact ih (i + 1) st
    | false =>
      simp only [Bool.false_eq_true, if_false]
      have hr := ih (i + 1) (streamPour st s).1
      have htf := timeFields_streamPour st s
      refine ⟨hr.1, hr.2.1.trans htf.1, hr.2.2.1.trans htf.2, ?_⟩
      simp only [streamPour_error, Bool.or_eq_false_iff, List.mem_cons]
      constructor
      · rintro ⟨h1, h2⟩ t ht
        rcases ht with ht | ht
        · subst ht
          cases hft : t.failure with
          | none => rfl
          | some e => rw [hft] at h1; simp at h1
        · exact (hr.2.2.2.mp h2) t ht
      · intro h
        refine ⟨?_, hr.2.2.2.mpr (fun t ht => h t (Or.inr ht))⟩
        rw [h s (Or.inl rfl)]
        rfl

/-- The orchestrator configuration and stream refuting the claim's iff: a
one-minute budget already exceeded before the first stream. -/
def c5Cfg : TapCfgM := { max_run_time := some 1 }

/-- A healthy root stream that would pour without error. -/
def c5Stream : StreamSpec :=
  { sid := "lists", kind := .root, records := [⟨"a"⟩], failure := none }

/-- C5 (counterexample): with `max_run_time = 1` minute and 120 elapsed
seconds, `pour` returns early before the first stream: no stream raised
(none was even attempted), yet `last_run` is not advanced to `current_run`
and the state is not reset — refuting the claim's "if and only if". -/
theorem early_stop_no_finalize_counterexample :
    (tapPour c5Cfg (fun _ => 120) (initState (some 5)) [c5Stream]).is_error = false
    ∧ (tapPour c5Cfg (fun _ => 120) (initState (some 5)) [c5Stream]).attempted = []
    ∧ (tapPour c5Cfg (fun _ => 120) (initState (some 5)) [c5Stream]).state.last_run = none
    ∧ (tapPour c5Cfg (fun _ => 120) (initState (some 5)) [c5Stream]).state.current_run
        = some 5 := by
  exact ⟨rfl, rfl, rfl, rfl⟩

/-- C5 (amended): an exception from one stream's pour is caught, recorded in
`is_error`, and the loop continues with the next stream; provided the run is
not cut short by the time budget, `last_run` is set to `current_run` (with
`current_run`, `currently_syncing` and `bookmarks` reset) if and only if no
attempted stream raised — an early time-budget return skips finalization
even when nothing raised. -/
theorem run_finalizes_iff_no_error (cfg : TapCfgM) (time : Nat → Nat)
    (st : TapState) (streams : List StreamSpec)
    (hstop : ∀ i, checkStop cfg (time i) = false) :
    (∀ st' : TapState, ∀ s : StreamSpec, ∀ rest : List StreamSpec, ∀ i : Nat,
      isDoneS st' s = false → checkStop cfg (time i) = false →
        (pourLoop cfg time i st' (s :: rest)).attempted =
          s :: (pourLoop cfg time (i + 1) (streamPour st' s).1 rest).attempted
        ∧ (pourLoop cfg time i st' (s :: rest)).emissions =
          (streamPour st' s).2.1 ++
            (pourLoop cfg time (i + 1) (streamPour st' s).1 rest).emissions
        ∧ (pourLoop cfg time i st' (s :: rest)).is_error =
          (((streamPour st' s).2.2).isSome ||
            (pourLoop cfg time (i + 1) (streamPour st' s).1 rest).is_error))
    ∧ (pourLoop cfg time 0 st streams).stopped = false
    ∧ ((pourLoop cfg time 0 st streams).is_error = false ↔
        ∀ t ∈ (pourLoop cfg time 0 st streams).attempted, t.failure = none)
    ∧ ((pourLoop cfg time 0 st streams).is_error = false →
        (tapPour cfg time st streams).state.last_run = st.current_run
        ∧ (tapPour cfg time st streams).state.current_run = none
        ∧ (tapPour cfg time st streams).state.currently_syncing = none
        ∧ (tapPour cfg time st streams).state.bookmarks = [])
    ∧ ((pourLoop cfg time 0 st streams).is_error = true →
        (tapPour cfg time st streams).state.last_run = st.last_run) := by
  have hmain := pourLoop_no_stop cfg time hstop streams 0 st
  refine ⟨?_, hmain.1, hmain.2.2.2, ?_, ?_⟩
  · intro st' s rest i hnd hcs
    rw [pourLoop_cons, hcs]
    simp only [Bool.false_eq_true, if_false, hnd]
    refine ⟨?_, ?_, ?_⟩ <;> first
      | rfl
      | trivial
  · intro herr
    unfold tapPour
    simp only [hmain.1, Bool.false_eq_true, if_false, herr]
    unfold TapState.finalize_run
    exact ⟨hmain.2.2.1, rfl, rfl, rfl⟩
  · intro herr
    unfold tapPour
    simp only [hmain.1, Bool.false_eq_true, if_false, herr, if_true]
    exact hmain.2.1

/-- Witness instantiating `run_finalizes_iff_no_error` on a clean
single-stream run with no time budget: the run finalizes. -/
theorem run_finalizes_iff_no_error_witness :
    (tapPour ⟨none⟩ (fun _ => 0) (initState (some 3))
      [⟨"lists", .root, [⟨"a"⟩], none⟩]).state.last_run = some 3
    ∧ (tapPour ⟨none⟩ (fun _ => 0) (initState (some 3))
      [⟨"lists", .root, [⟨"a"⟩], none⟩]).state.bookmarks = [] := by
  have h := run_finalizes_iff_no_error ⟨none⟩ (fun _ => 0) (initState (some 3))
    [⟨"lists", .root, [⟨"a"⟩], none⟩] (fun _ => rfl)
  have he : (pourLoop ⟨none⟩ (fun _ => 0) 0 (initState (some 3))
      [⟨"lists", .root, [⟨"a"⟩], none⟩]).is_error = false := rfl
  have hc := h.2.2.2.1 he
  exact ⟨hc.1.trans rfl, hc.2.2.2⟩

theorem isDoneS_currently_syncing (st : TapState) (x : Option String)
    (s : StreamSpec) :
    isDoneS { st with currently_syncing := x } s = isDoneS st s := by
  unfold isDoneS
  cases s.kind <;> rfl

theorem get_done_updateState (st : TapState) (t : StreamSpec) (r : MCRecord)
    (sid : String) :
    (updateStateS st t r).get_done sid = st.get_done sid := by
  unfold updateStateS
  cases hk : t.kind with
  | root =>
    simp only
    unfold TapState.set_count TapState.add_id
    rw [get_done_write_bookmark _ _ _ _ _ (by simp),
      get_done_write_bookmark _ _ _ _ _ (by simp)]
  | item iid =>
    simp only
    unfold TapState.set_id_count TapState.set_id_offset TapState.set_offset
    rw [get_done_write_bookmark _ _ _ _ _ (by simp)]

theorem get_id_offset_set_offset_diffsid (st : TapState) (sid' k : String)
    (v : JVal) (sid iid : String) (dflt : JVal) (h : sid' ≠ sid) :
    (st.set_offset sid' k v).get_id_offset sid iid dflt =
      st.get_id_offset sid iid dflt := by
  unfold TapState.set_offset
  rw [get_id_offset_write_bookmark_other]
  simp [h]

theorem get_id_offset_set_id_count_gen (st : TapState) (tsid tiid : String)
    (c : Nat) (sid iid : String) (dflt : JVal) (h : tsid ≠ sid ∨ tiid ≠ iid) :
    (st.set_id_count tsid tiid c).get_id_offset sid iid dflt =
      st.get_id_offset sid iid dflt := by
  rcases h with h | h
  · show (st.set_offset tsid tiid _).get_id_offset sid iid dflt = _
    exact get_id_offset_set_offset_diffsid st tsid tiid _ sid iid dflt h
  · by_cases hs : tsid = sid
    · subst hs
      show (st.set_offset tsid tiid _).get_id_offset tsid iid dflt = _
      rw [get_id_offset_set_offset]
      simp [h]
    · show (st.set_offset tsid tiid _).get_id_offset sid iid dflt = _
      exact get_id_offset_set_offset_diffsid st tsid tiid _ sid iid dflt hs

theorem get_id_done_updateState (st : TapState) (t : StreamSpec) (r : MCRecord)
    (sid iid : String)
    (h : ∀ tiid, t.kind = .item tiid → t.sid = sid → tiid ≠ iid) :
    (updateStateS st t r).get_id_done sid iid = st.get_id_done sid iid := by
  unfold updateStateS
  cases hk : t.kind with
  | root =>
    simp only
    unfold TapState.set_count TapState.add_id TapState.get_id_done
    rw [get_id_offset_write_bookmark_other _ _ _ _ _ _ _ (by simp),
      get_id_offset_write_bookmark_other _ _ _ _ _ _ _ (by simp)]
  | item tiid =>
    simp only
    unfold TapState.get_id_done
    have hcond : t.sid ≠ sid ∨ tiid ≠ iid := by
      by_cases hsid : t.sid = sid
      · exact Or.inr (h tiid hk hsid)
      · exact Or.inl hsid
    rw [get_id_offset_set_id_count_gen st t.sid tiid _ sid iid _ hcond]

theorem isDone_updateState (st : TapState) (t s : StreamSpec) (r : MCRecord)
    (hitem : ∀ tiid siid, t.kind = .item tiid → s.kind = .item siid →
      t.sid = s.sid → tiid ≠ siid) :
    isDoneS (updateStateS st t r) s = isDoneS st s := by
  unfold isDoneS
  cases hs : s.kind with
  | root =>
    simp only
    rw [get_done_updateState]
  | item siid =>
    simp only
    rw [get_id_done_updateState st t r s.sid siid
      (fun tiid hk hsid => hitem tiid siid hk hs hsid)]

theorem isDone_pourRecords (t s : StreamSpec) (recs : List MCRecord)
    (hitem : ∀ tiid siid, t.kind = .item tiid → s.kind = .item siid →
      t.sid = s.sid → tiid ≠ siid) :
    ∀ st : TapState, isDoneS ((pourRecords t st recs).1) s = isDoneS st s := by
  induction recs with
  | nil => intro st; rfl
  | cons r rs ih =>
    intro st
    show isDoneS ((pourRecords t (updateStateS st t r) rs).1) s = _
    rw [ih, isDone_updateState st t s r hitem]

theorem isDone_setDone (st : TapState) (t s : StreamSpec)
    (hroot : t.kind = .root → t.sid ≠ s.sid)
    (hitem : ∀ tiid siid, t.kind = .item tiid → s.kind = .item siid →
      t.sid = s.sid → tiid ≠ siid) :
    isDoneS (setDoneS st t) s = isDoneS st s := by
  unfold setDoneS
  cases hkt : t.kind with
  | root =>
    simp only
    have hsid := hroot hkt
    unfold TapState.set_done TapState.clear_offset
    simp only [if_true]
    unfold isDoneS
    cases hks : s.kind with
    | root =>
      simp only
      rw [get_done_write_bookmark _ _ _ _ _ (by simp),
        get_done_write_bookmark _ _ _ _ _ (by simp [hsid])]
    | item siid =>
      simp only
      unfold TapState.get_id_done
      rw [get_id_offset_write_bookmark_other _ _ _ _ _ _ _ (by simp [hsid]),
        get_id_offset_write_bookmark_other _ _ _ _ _ _ _ (by simp)]
  | item tiid =>
    simp only
    unfold TapState.set_id_done
    simp only [if_true]
    unfold isDoneS
    cases hks : s.kind with
    | root =>
      simp only
      unfold TapState.set_offset
      rw [get_done_write_bookmark _ _ _ _ _ (by simp)]
    | item siid =>
      simp only
      unfold TapState.get_id_done
      by_cases hsid : t.sid = s.sid
      · have hne : tiid ≠ siid := hitem tiid siid hkt hks hsid
        rw [hsid, get_id_offset_set_offset]
        simp [hne]
      · rw [get_id_offset_set_offset_diffsid _ _ _ _ _ _ _ hsid]

theorem isDone_streamPour_frame (st : TapState) (t s : StreamSpec)
    (hroot : t.kind = .root → t.sid ≠ s.sid)
    (hitem : ∀ tiid siid, t.kind = .item tiid → s.kind = .item siid →
      t.sid = s.sid → tiid ≠ siid) :
    isDoneS ((streamPour st t).1) s = isDoneS st s := by
  have hrec := isDone_pourRecords t s t.records hitem
    { st with currently_syncing := some t.sid }
  unfold streamPour
  cases hf : t.failure
  · simp only
    rw [isDoneS_currently_syncing, isDone_setDone _ t s hroot hitem, hrec,
      isDoneS_currently_syncing]
  · simp only
    rw [hrec, isDoneS_currently_syncing]

theorem pourLoop_skips_done (cfg : TapCfgM) (time : Nat → Nat) (s : StreamSpec) :
    ∀ streams : List StreamSpec, ∀ i : Nat, ∀ st : TapState,
      isDoneS st s = true →
      (∀ t ∈ streams, t.sid = s.sid → t.kind = .root → s.kind = .root) →
      s ∉ (pourLoop cfg time i st streams).attempted := by
  intro streams
  induction streams with
  | nil => intro i st _ _; simp [pourLoop]
  | cons t rest ih =>
    intro i st hds hcompat
    rw [pourLoop_cons]
    cases hcs : checkStop cfg (time i) with
    | true => simp
    | false =>
      simp only [Bool.false_eq_true, if_false]
      cases hd : isDoneS st t with
      | true =>
        simp only [if_true]
        exact ih (i + 1) st hds
          (fun u hu => hcompat u (List.mem_cons_of_mem t hu))
      | false =>
        simp only [Bool.false_eq_true, if_false]
        have hst : s ≠ t := by
          intro he
          rw [← he, hds] at hd
          simp at hd
        have hroot : t.kind = .root → t.sid ≠ s.sid := by
          intro hkt hsid
          have hs' : s.kind = .root := hcompat t (List.mem_cons_self t rest) hsid hkt
          have heq : isDoneS st t = isDoneS st s := by
            unfold isDoneS
            rw [hkt, hs', hsid]
          rw [hd, hds] at heq
          simp at heq
        have hitem : ∀ tiid siid, t.kind = .item tiid → s.kind = .item siid →
            t.sid = s.sid → tiid ≠ siid := by
          intro tiid siid hkt hks hsid hii
          have heq : isDoneS st t = isDoneS st s := by
            unfold isDoneS
            rw [hkt, hks, hsid, hii]
          rw [hd, hds] at heq
          simp at heq
        have hkeep : isDoneS ((streamPour st t).1) s = true := by
          rw [isDone_streamPour_frame st t s hroot hitem]
          exact hds
        show s ∉ t :: (pourLoop cfg time (i + 1) (streamPour st t).1 rest).attempted
        intro hmem
        rcases List.mem_cons.mp hmem with he | hm
        · exact hst he
        · exact ih (i + 1) (streamPour st t).1 hkeep
            (fun u hu => hcompat u (List.mem_cons_of_mem t hu)) hm

/-- C7: a stream whose persisted state is already marked done — `done = true`
for a root stream, or the per-item done flag for an item-scoped stream — is
never poured on a re-run with that state: the orchestrator's `is_done` check
short-circuits before `pour`, so the stream contributes zero record
emissions. The hypothesis rules out a root stream sharing its stream id with
a done item-scoped stream, which cannot arise among the tap's four streams. -/
theorem done_stream_not_repoured (cfg : TapCfgM) (time : Nat → Nat)
    (st : TapState) (streams : List StreamSpec) (s : StreamSpec)
    (hdone : isDoneS st s = true)
    (hcompat : ∀ t ∈ streams, t.sid = s.sid → t.kind = .root → s.kind = .root) :
    s ∉ (tapPour cfg time st streams).attempted := by
  have hatt : (tapPour cfg time st streams).attempted =
      (pourLoop cfg time 0 st streams).attempted := by
    unfold tapPour
    by_cases h1 : (pourLoop cfg time 0 st streams).stopped <;>
      by_cases h2 : (pourLoop cfg time 0 st streams).is_error <;>
        simp [h1, h2]
  rw [hatt]
  exact pourLoop_skips_done cfg time s streams 0 st hdone hcompat

/-- Witness instantiating `done_stream_not_repoured`: re-running with the
`lists` stream marked done skips it while the `campaigns` stream still runs. -/
theorem done_stream_not_repoured_witness :
    (⟨"lists", .root, [⟨"a"⟩], none⟩ : StreamSpec) ∉
      (tapPour ⟨none⟩ (fun _ => 0) ((initState none).set_done "lists" true)
        [⟨"lists", .root, [⟨"a"⟩], none⟩, ⟨"campaigns", .root, [⟨"c"⟩], none⟩]).attempted
    ∧ (tapPour ⟨none⟩ (fun _ => 0) ((initState none).set_done "lists" true)
        [⟨"lists", .root, [⟨"a"⟩], none⟩, ⟨"campaigns", .root, [⟨"c"⟩], none⟩]).attempted
      = [⟨"campaigns", .root, [⟨"c"⟩], none⟩] := by
  constructor
  · exact done_stream_not_repoured ⟨none⟩ (fun _ => 0)
      ((initState none).set_done "lists" true)
      [⟨"lists", .root, [⟨"a"⟩], none⟩, ⟨"campaigns", .root, [⟨"c"⟩], none⟩]
      ⟨"lists", .root, [⟨"a"⟩], none⟩ rfl (by decide)
  · rfl

/-- The per-round shift amounts of MD5 (RFC 1321). -/
def md5S : List Nat :=
  [7, 12, 17, 22, 7, 12, 17, 22, 7, 12, 17, 22, 7, 12, 17, 22,
   5, 9, 14, 20, 5, 9, 14, 20, 5, 9, 14, 20, 5, 9, 14, 20,
   4, 11, 16, 23, 4, 11, 16, 23, 4, 11, 16, 23, 4, 11, 16, 23,
   6, 10, 15, 21, 6, 10, 15, 21, 6, 10, 15, 21, 6, 10, 15, 21]

/-- The sine-derived round constants of MD5 (RFC 1321),
`floor(abs(sin(i + 1)) * 2^32)`. -/
def md5K : List Nat :=
  [3614090360, 3905402710, 606105819, 3250441966,
   4118548399, 1200080426, 2821735955, 4249261313,
   1770035416, 2336552879, 4294925233, 2304563134,
   1804603682, 4254626195, 2792965006, 1236535329,
   4129170786, 3225465664, 643717713, 3921069994,
   3593408605, 38016083, 3634488961, 3889429448,
   568446438, 3275163606, 4107603335, 1163531501,
   2850285829, 4243563512, 1735328473, 2368359562,
   4294588738, 2272392833, 1839030562, 4259657740,
   2763975236, 1272893353, 4139469664, 3200236656,
   681279174, 3936430074, 3572445317, 76029189,
   3654602809, 3873151461, 530742520, 3299628645,
   4096336452, 1126891415, 2878612391, 4237533241,
   1700485571, 2399980690, 4293915773, 2240044497,
   1873313359, 4264355552, 2734768916, 1309151649,
   4149444226, 3174756917, 718787259, 3951481745]

/-- Rotate a 32-bit word (held as a `Nat` below `2^32`) left by `s` bits. -/
def rotl32 (x s : Nat) : Nat :=
  (x * 2 ^ s) % 4294967296 + x / 2 ^ (32 - s)

/-- The MD5 round mixing functions F, G, H, I selected by round index. -/
def md5Mix (i b c d : Nat) : Nat :=
  if i < 16 then (b &&& c) ||| ((4294967295 ^^^ b) &&& d)
  else if i < 32 then (d &&& b) ||| ((4294967295 ^^^ d) &&& c)
  else if i < 48 then b ^^^ c ^^^ d
  else c ^^^ (b ||| (4294967295 ^^^ d))

/-- The message-word index used in round `i` of MD5. -/
def md5Idx (i : Nat) : Nat :=
  if i < 16 then i
  else if i < 32 then (5 * i + 1) % 16
  else if i < 48 then (3 * i + 5) % 16
  else (7 * i) % 16

/-- One MD5 round over the 16-word block `M`. -/
def md5Round (M : List Nat) (st : Nat × Nat × Nat × Nat) (i : Nat) :
    Nat × Nat × Nat × Nat :=
  let (a, b, c, d) := st
  let f := (md5Mix i b c d + a + md5K.getD i 0 + M.getD (md5Idx i) 0) % 4294967296
  (d, (b + rotl32 f (md5S.getD i 0)) % 4294967296, b, c)

/-- Process one 512-bit block, adding the 64-round result into the state. -/
def md5Block (h : Nat × Nat × Nat × Nat) (M : List Nat) : Nat × Nat × Nat × Nat :=
  let r := (List.range 64).foldl (md5Round M) h
  ((h.1 + r.1) % 4294967296, (h.2.1 + r.2.1) % 4294967296,
   (h.2.2.1 + r.2.2.1) % 4294967296, (h.2.2.2 + r.2.2.2) % 4294967296)

/-- Little-endian 4-byte encoding of a 32-bit word. -/
def toLE4 (n : Nat) : List Nat :=
  [n % 256, n / 256 % 256, n / 65536 % 256, n / 16777216 % 256]

/-- Little-endian 8-byte encoding of the 64-bit message bit length. -/
def toLE8 (n : Nat) : List Nat :=
  toLE4 (n % 4294967296) ++ toLE4 (n / 4294967296 % 4294967296)

/-- Assemble little-endian 32-bit words from a byte list. -/
def bytesToWords : List Nat → List Nat
  | b0 :: b1 :: b2 :: b3 :: rest =>
      (b0 + 256 * b1 + 65536 * b2 + 16777216 * b3) :: bytesToWords rest
  | _ => []

/-- Accumulate 16-word blocks from a word stream (structurally recursive so
that digests reduce definitionally). -/
def chunk16Go (cur : List Nat) (out : List (List Nat)) : List Nat → List (List Nat)
  | [] => if cur.isEmpty then out else out ++ [cur]
  | w :: ws =>
      if cur.length = 15 then chunk16Go [] (out ++ [cur ++ [w]]) ws
      else chunk16Go (cur ++ [w]) out ws

/-- Split a word list into 16-word blocks. -/
def chunk16 (l : List Nat) : List (List Nat) := chunk16Go [] [] l

/-- MD5 padding: a `0x80` byte, zeros to 56 mod 64, then the bit length. -/
def md5Pad (msg : List Nat) : List Nat :=
  msg ++ [128] ++ List.replicate ((119 - msg.length % 64) % 64) 0
    ++ toLE8 (8 * msg.length)

/-- The MD5 digest of a byte string, as 16 bytes (RFC 1321; this models the
external `hashlib.md5`, the fixed, well-known digest named by the spec). -/
def md5Digest (msg : List Nat) : List Nat :=
  let r := (chunk16 (bytesToWords (md5Pad msg))).foldl md5Block
    (1732584193, 4023233417, 2562383102, 271733878)
  toLE4 r.1 ++ toLE4 r.2.1 ++ toLE4 r.2.2.1 ++ toLE4 r.2.2.2

/-- Lower-case hex character for a nibble. -/
def hexDigit (n : Nat) : Char :=
  if n < 10 then Char.ofNat (48 + n) else Char.ofNat (87 + n)

/-- `hexdigest`: the digest bytes rendered as lower-case hex. -/
def md5hex (msg : List Nat) : String :=
  String.mk (((md5Digest msg).map (fun b => [hexDigit (b / 16), hexDigit (b % 16)])).flatten)

/-- UTF-8 encoding of one code point (`str.encode('utf-8')`, per byte). -/
def utf8Char (n : Nat) : List Nat :=
  if n < 128 then [n]
  else if n < 2048 then [192 + n / 64, 128 + n % 64]
  else if n < 65536 then [224 + n / 4096, 128 + n / 64 % 64, 128 + n % 64]
  else [240 + n / 262144, 128 + n / 4096 % 64, 128 + n / 64 % 64, 128 + n % 64]

/-- UTF-8 bytes of a string. -/
def utf8Bytes (s : String) : List Nat :=
  (s.data.map (fun c => utf8Char c.toNat)).flatten

/-- Python `str.lower`, modelled for the ASCII range the email ids use. -/
def pyLower (s : String) : String :=
  String.mk (s.data.map (fun c =>
    if 65 ≤ c.toNat ∧ c.toNat ≤ 90 then Char.ofNat (c.toNat + 32) else c))

/-- `utils.mailchimp_email_id`: hex MD5 of the lower-cased, UTF-8 encoded
email address. -/
def mailchimp_email_id (email : String) : String :=
  md5hex (utf8Bytes (pyLower email))

/-- C9: the pseudonymous email id is deterministic and case-insensitive —
`mailchimp_email_id` of `"Foo@Bar.com"` and of `"foo@bar.com"` agree, and
both equal the fixed MD5 hex digest of `"foo@bar.com"`. -/
theorem email_id_deterministic :
    mailchimp_email_id "Foo@Bar.com" = mailchimp_email_id "foo@bar.com"
    ∧ mailchimp_email_id "foo@bar.com" = "f3ada405ce890b6f8204094deb12d8a8"
    ∧ mailchimp_email_id "foo@bar.com" = md5hex (utf8Bytes "foo@bar.com") := by
  refine ⟨rfl, by decide, rfl⟩

/-- A parsed datetime as `dateutil.parser.parse` returns it: calendar fields
plus an optional UTC offset in minutes (`none` = timezone-naive). The parser
itself is an external library; it is modelled here on the
`YYYY-MM-DD HH:MM:SS` timestamps the tap normalizes, which parse to a
naive datetime. -/
structure PyDateTime where
  year : Nat
  month : Nat
  day : Nat
  hour : Nat
  minute : Nat
  second : Nat
  tz : Option Int

/-- Decimal digit value of a character, if any. -/
def digitVal (c : Char) : Option Nat :=
  if 48 ≤ c.toNat ∧ c.toNat ≤ 57 then some (c.toNat - 48) else none

/-- Two decimal digits. -/
def twoDig (a b : Char) : Option Nat :=
  match digitVal a, digitVal b with
  | some x, some y => some (10 * x + y)
  | _, _ => none

/-- Four decimal digits. -/
def fourDig (a b c d : Char) : Option Nat :=
  match twoDig a b, twoDig c d with
  | some x, some y => some (100 * x + y)
  | _, _ => none

/-- Parse a `YYYY-MM-DD HH:MM:SS` timestamp to a naive datetime (the modelled
slice of `dateutil.parser.parse`); anything else is a parse error. -/
def parseNaive (s : String) : Option PyDateTime :=
  match s.data with
  | [y1, y2, y3, y4, '-', m1, m2, '-', d1, d2, ' ', h1, h2, ':', n1, n2, ':', s1, s2] =>
      match fourDig y1 y2 y3 y4, twoDig m1 m2, twoDig d1 d2, twoDig h1 h2,
          twoDig n1 n2, twoDig s1 s2 with
      | some y, some mo, some dy, some hr, some mi, some se =>
          if 1 ≤ mo ∧ mo ≤ 12 ∧ 1 ≤ dy ∧ dy ≤ 31 ∧ hr ≤ 23 ∧ mi ≤ 59 ∧ se ≤ 59
          then some ⟨y, mo, dy, hr, mi, se, none⟩ else none
      | _, _, _, _, _, _ => none
  | _ => none

/-- Two-digit zero-padded decimal rendering. -/
def pad2 (n : Nat) : String :=
  if n < 10 then "0" ++ toString n else toString n

/-- Four-digit zero-padded decimal rendering. -/
def pad4 (n : Nat) : String :=
  if n < 10 then "000" ++ toString n
  else if n < 100 then "00" ++ toString n
  else if n < 1000 then "0" ++ toString n
  else toString n

/-- The UTC-offset suffix of `datetime.isoformat` (empty when naive). -/
def tzSuffix : Option Int → String
  | none => ""
  | some off =>
      (if off < 0 then "-" else "+") ++ pad2 (off.natAbs / 60) ++ ":"
        ++ pad2 (off.natAbs % 60)

/-- `datetime.isoformat`. -/
def isoformat (d : PyDateTime) : String :=
  pad4 d.year ++ "-" ++ pad2 d.month ++ "-" ++ pad2 d.day ++ "T"
    ++ pad2 d.hour ++ ":" ++ pad2 d.minute ++ ":" ++ pad2 d.second
    ++ tzSuffix d.tz

/-- `utils.datify`: `None` or empty input yields `None`; otherwise parse — a
naive result gets UTC attached — and render ISO-8601; an unparseable,
non-empty value raises (`Except.error`). -/
def datify : Option String → Except String (Option String)
  | none => .ok none
  | some dt =>
      if dt = "" then .ok none
      else
        match parseNaive dt with
        | none => .error dt
        | some dtobj =>
            match dtobj.tz with
            | none => .ok (some (isoformat { dtobj with tz := some 0 }))
            | some _ => .ok (some (isoformat dtobj))

/-- Split a dotted path on the dots, as Python `key.split(sep)`. -/
def splitDotsGo (cur : List Char) : List Char → List String
  | [] => [String.mk cur.reverse]
  | c :: cs =>
      if c = '.' then String.mk cur.reverse :: splitDotsGo [] cs
      else splitDotsGo (c :: cur) cs

/-- Split a dotted key into its path components. -/
def splitDots (s : String) : List String := splitDotsGo [] s.data

/-- `utils.set_deep` on a parsed path: descend through nested dicts, creating
them as needed, and set the leaf (the empty-path case cannot arise from
`split`). -/
def setDeepPath : List (String × JVal) → List String → JVal → List (String × JVal)
  | d, [], _ => d
  | d, [leaf], v => setKey d leaf v
  | d, k :: rest, v =>
      let sub := match getKey d k with | some (.obj o) => o | _ => []
      setKey d k (.obj (setDeepPath sub rest v))

/-- `utils.set_deep` with the default dotted separator. -/
def set_deep (d : List (String × JVal)) (key : String) (v : JVal) :
    List (String × JVal) :=
  setDeepPath d (splitDots key) v

/-- One rename-table entry of `LIST_EXPORT_V1_TO_API_V3`: the API-v3 dotted
key and the per-field coercion. -/
structure XForm where
  v3_key : String
  coerce : JVal → Except String JVal

/-- The `datify` coercion applied to an export-row value (rows hold strings;
anything else would raise in the library parser). -/
def coerceDatify : JVal → Except String JVal
  | .str s =>
      match datify (some s) with
      | .ok (some iso) => .ok (.str iso)
      | .ok none => .ok .null
      | .error e => .error e
  | _ => .error "TypeError"

/-- The `str` coercion on an export-row string value. -/
def coerceStr : JVal → Except String JVal
  | .str s => .ok (.str s)
  | _ => .error "TypeError"

/-- The field loop of `ApiVersionTool.coerce_list_export_to_api_v3`: for each
rename-table entry, skip the field when the row lacks it or holds `None` or
the empty string, otherwise coerce (re-raising coercion errors) and place the
value at the entry's dotted API-v3 key. -/
def coerceFields (export_data : List (String × JVal)) :
    List (String × XForm) → List (String × JVal) →
      Except String (List (String × JVal))
  | [], acc => .ok acc
  | (old_key, xf) :: rest, acc =>
      match getKey export_data old_key with
      | none => coerceFields export_data rest acc
      | some .null => coerceFields export_data rest acc
      | some (.str "") => coerceFields export_data rest acc
      | some v =>
          match xf.coerce v with
          | .error e => .error e
          | .ok nv => coerceFields export_data rest (set_deep acc xf.v3_key nv)

/-- `ApiVersionTool.coerce_list_export_to_api_v3`: seed the record with the
pseudonymous email id, the list id and the status, then run the rename
table; a row without `Email Address` raises (`KeyError`). -/
def coerceListExport (mappings : List (String × XForm)) (list_id status : String)
    (export_data : List (String × JVal)) :
    Except String (List (String × JVal)) :=
  match getKey export_data "Email Address" with
  | some (.str email_address) =>
      coerceFields export_data mappings
        [("id", .str (mailchimp_email_id email_address)),
         ("list_id", .str list_id), ("status", .str status)]
  | _ => .error "KeyError"

/-- The rename-table slice exercised by the date-normalization row:
`CONFIRM_TIME → timestamp_opt` via `datify` (the table is a runtime argument
of the coercion, built by `api_v3_map_with_merge_fields`). -/
def c10Mappings : List (String × XForm) :=
  [("CONFIRM_TIME", ⟨"timestamp_opt", coerceDatify⟩)]

/-- An export row whose date field is the empty string. -/
def c10RowBlank : List (String × JVal) :=
  [("Email Address", .str "foo@bar.com"), ("CONFIRM_TIME", .str "")]

/-- An export row lacking the date field. -/
def c10RowMissing : List (String × JVal) :=
  [("Email Address", .str "foo@bar.com")]

/-- An export row whose date field is `None`. -/
def c10RowNull : List (String × JVal) :=
  [("Email Address", .str "foo@bar.com"), ("CONFIRM_TIME", .null)]

/-- An export row with a naive timestamp in the date field. -/
def c10RowNaive : List (String × JVal) :=
  [("Email Address", .str "foo@bar.com"),
   ("CONFIRM_TIME", .str "2020-01-01 00:00:00")]

/-- C10: normalizing the naive timestamp string `2020-01-01 00:00:00` yields
the ISO-8601 string `2020-01-01T00:00:00+00:00` (no timezone means UTC), and
a `None` or empty-string source value leaves the target field absent from
the normalized record — the row is emitted without `timestamp_opt`, never
with an empty string. -/
theorem datify_normalization :
    datify (some "2020-01-01 00:00:00") = .ok (some "2020-01-01T00:00:00+00:00")
    ∧ datify (some "") = .ok none
    ∧ datify none = .ok none
    ∧ coerceListExport c10Mappings "L1" "subscribed" c10RowNaive =
        .ok [("id", .str "f3ada405ce890b6f8204094deb12d8a8"),
             ("list_id", .str "L1"), ("status", .str "subscribed"),
             ("timestamp_opt", .str "2020-01-01T00:00:00+00:00")]
    ∧ coerceListExport c10Mappings "L1" "subscribed" c10RowBlank =
        .ok [("id", .str "f3ada405ce890b6f8204094deb12d8a8"),
             ("list_id", .str "L1"), ("status", .str "subscribed")]
    ∧ coerceListExport c10Mappings "L1" "subscribed" c10RowNull =
        .ok [("id", .str "f3ada405ce890b6f8204094deb12d8a8"),
             ("list_id", .str "L1"), ("status", .str "subscribed")]
    ∧ coerceListExport c10Mappings "L1" "subscribed" c10RowMissing =
        .ok [("id", .str "f3ada405ce890b6f8204094deb12d8a8"),
             ("list_id", .str "L1"), ("status", .str "subscribed")] := by
  refine ⟨rfl, rfl, rfl, ?_, ?_, ?_, ?_⟩ <;> rfl
